import Mathlib

/-!
Verification development for the dissect toolkit core: the semantic space
(`src/composes/semantic_space/space.py`) and the full additive composition
model (`src/composes/composition/full_additive.py`).

Machine integers do not arise: all numeric entries are mathematical values;
we model matrix entries and similarity scores as integers `Int` (the code
works with arbitrary numeric matrices; only ordering and ring operations
are relevant to the claims).

The matrix capability, the space utility functions, the regression learner,
and the similarity capability are external collaborators of the two source
files; the spec specifies them at their interface (spec sections 3 and 6),
so the corresponding definitions below are modelled from the spec and are
marked as such in their doc comments.
-/

/-- Error taxonomy of the design (spec section 7), plus `attributeError`
for the Python runtime failure of accessing an attribute that an object
does not define. -/
inductive Err where
  | typeMismatch
  | shapeMismatch
  | mappingMismatch
  | columnMismatch
  | duplicateKey
  | attributeError
  | keyNotFound (word : String)
deriving DecidableEq

/-- Modelled from the spec: the external matrix capability is a dense or
sparse numeric 2-D container.  `data` is the list of rows; `cols` is the
second component of `shape`. -/
structure Mat where
  cols : Nat
  data : List (List Int)
deriving DecidableEq

/-- `shape[0]` of the matrix: the number of rows. -/
def Mat.rowCount (m : Mat) : Nat := m.data.length

/-- Modelled from the spec: matrix transpose of the external capability. -/
def Mat.transpose (m : Mat) : Mat :=
  ⟨m.data.length, (List.range m.cols).map (fun j => m.data.map (fun r => r.getD j 0))⟩

/-- Modelled from the spec: matrix product of the external capability. -/
def Mat.mul (a b : Mat) : Mat :=
  ⟨b.cols,
   a.data.map (fun row =>
     (List.range b.cols).map (fun k =>
       (row.zip b.data).foldr (fun p acc => p.1 * p.2.getD k 0 + acc) 0))⟩

/-- Modelled from the spec: elementwise matrix addition of the external
capability. -/
def Mat.add (a b : Mat) : Mat :=
  ⟨a.cols, List.zipWith (fun r s => List.zipWith (· + ·) r s) a.data b.data⟩

/-- Modelled from the spec: horizontal stacking of the external capability. -/
def Mat.hstack (a b : Mat) : Mat :=
  ⟨a.cols + b.cols, List.zipWith (fun r s => r ++ s) a.data b.data⟩

/-- Modelled from the spec: vertical stacking of the external capability. -/
def Mat.vstack (a b : Mat) : Mat :=
  ⟨a.cols, a.data ++ b.data⟩

/-- The row slice `m[0:n, :]`. -/
def Mat.rowRangeTo (m : Mat) (n : Nat) : Mat :=
  ⟨m.cols, m.data.take n⟩

/-- The row slice `m[n:, :]`. -/
def Mat.rowRangeFrom (m : Mat) (n : Nat) : Mat :=
  ⟨m.cols, m.data.drop n⟩

/-- Modelled from the spec: `padd_matrix(mat, value)` of the external
`matrix_utils2` module (missing from src/) appends a constant column with
the given value to the matrix. -/
def padd_matrix (m : Mat) (v : Int) : Mat :=
  ⟨m.cols + 1, m.data.map (fun r => r ++ [v])⟩

/-- A Python value that may be handed to `FullAdditive.__init__` as the
keyword argument `A` or `B`: a matrix, or some non-matrix value. -/
inductive PyVal where
  | mat (m : Mat)
  | other

/-- Modelled from the spec: `is_array_or_matrix` of the external
`matrix_utils2` module (missing from src/) recognizes matrix values. -/
def is_array_or_matrix : PyVal → Bool
  | .mat _ => true
  | .other => false

/-- Modelled from the spec: `to_compatible_matrix_types` of the external
`matrix_utils2` module (missing from src/) returns both operands coerced to
one common concrete representation; our embedding has a single concrete
matrix representation, so the coercion is the identity on both. -/
def to_compatible_matrix_types (a b : Mat) : Mat × Mat := (a, b)

/-- Modelled from the spec: the external regression-learner capability
exposes `train(X, Y) -> stacked coefficient matrix` and
`has_intercept() -> boolean` (spec section 6). -/
structure RegressionLearner where
  has_intercept : Bool
  train : Mat → Mat → Mat

/-- Modelled from the spec: the default ridge-regression learner
(`RidgeRegressionLearner` of the external `regression_learner` module,
missing from src/); only its interface matters for the claims.  Dissect's
default ridge learner fits an intercept. -/
def RidgeRegressionLearner : RegressionLearner :=
  ⟨true, fun _ phrase => phrase⟩

/-- The mutable attribute state of a `FullAdditive` instance
(`full_additive.py`, class `FullAdditive`).  Python object attributes that
a given initialization path never assigns are absent; we model attribute
presence with `Option` (an absent attribute reads as `none`, and reading
it in the source raises `AttributeError`). -/
structure FullAdditive where
  mat_a_t : Option Mat
  mat_b_t : Option Mat
  regression_learner : Option RegressionLearner
  has_intercept : Bool

/-- The keyword arguments `FullAdditive.__init__` inspects: `"A"`, `"B"`
and `"learner"`. -/
structure Kwargs where
  A : Option PyVal
  B : Option PyVal
  learner : Option RegressionLearner

/-- `FullAdditive.__init__` (`full_additive.py` lines 21-45): the direct
parameter path runs only when both `"A"` and `"B"` are in `kwargs`; it
type-checks both, coerces them to compatible types, stores their
transposes and forces `has_intercept` to false.  Otherwise the learner
path stores the supplied learner (default: ridge regression) and reads
`has_intercept` from it; the parameter matrices stay unassigned. -/
def FullAdditive.init (kw : Kwargs) : Except Err FullAdditive :=
  match kw.A, kw.B with
  | some a, some b =>
    match a with
    | .other => .error .typeMismatch
    | .mat ma =>
      match b with
      | .other => .error .typeMismatch
      | .mat mb =>
        let pr := to_compatible_matrix_types ma mb
        .ok { mat_a_t := some pr.1.transpose
              mat_b_t := some pr.2.transpose
              regression_learner := none
              has_intercept := false }
  | _, _ =>
    let L := kw.learner.getD RidgeRegressionLearner
    .ok { mat_a_t := none
          mat_b_t := none
          regression_learner := some L
          has_intercept := L.has_intercept }

/-- `FullAdditive._train` (`full_additive.py` lines 48-55): re-reads
`has_intercept` from the learner, regresses `hstack(arg1, arg2)` against
`phrase_mat`, and splits the coefficient matrix at row `arg1_mat.shape[1]`.
A model whose learner attribute was never assigned (direct-parameter path)
raises `AttributeError` when `_train` reads it. -/
def FullAdditive.train (m : FullAdditive) (arg1_mat arg2_mat phrase_mat : Mat) :
    Except Err FullAdditive :=
  match m.regression_learner with
  | none => .error .attributeError
  | some L =>
    let result := L.train (arg1_mat.hstack arg2_mat) phrase_mat
    .ok { m with
          has_intercept := L.has_intercept
          mat_a_t := some (result.rowRangeTo arg1_mat.cols)
          mat_b_t := some (result.rowRangeFrom arg1_mat.cols) }

/-- `FullAdditive._compose` (`full_additive.py` lines 58-62): with an
intercept, `arg1 * A^T + padd_matrix(arg2, 1) * B^T`; without,
`arg1 * A^T + arg2 * B^T`.  Reading an unassigned parameter attribute
raises `AttributeError`. -/
def FullAdditive.compose (m : FullAdditive) (arg1_mat arg2_mat : Mat) :
    Except Err Mat :=
  match m.mat_a_t, m.mat_b_t with
  | some a_t, some b_t =>
    if m.has_intercept then
      .ok (Mat.add (Mat.mul arg1_mat a_t) (Mat.mul (padd_matrix arg2_mat 1) b_t))
    else
      .ok (Mat.add (Mat.mul arg1_mat a_t) (Mat.mul arg2_mat b_t))
  | _, _ => .error .attributeError

/-- `FullAdditive._build_id2column` (`full_additive.py` lines 72-73). -/
def FullAdditive.build_id2column (_arg1_space _arg2_space : Unit) : List String := []

/-- Concrete matrices and models used by the witnesses below. -/
def exAt : Mat := ⟨2, [[1, 2], [3, 4]]⟩

def exBt : Mat := ⟨2, [[5, 6], [7, 8]]⟩

def exArg1 : Mat := ⟨2, [[1, 0]]⟩

def exArg2 : Mat := ⟨2, [[0, 1]]⟩

def exPhrase : Mat := ⟨2, [[9, 9]]⟩

def exModelNoInt : FullAdditive := ⟨some exAt, some exBt, none, false⟩

def exLearner : RegressionLearner := ⟨true, fun x _ => x⟩

def exModelLearner : FullAdditive := ⟨none, none, some exLearner, false⟩

/-- C1: for the additive composition model, `_compose` returns
`arg1_mat * A^T + arg2_mat * B^T` when `has_intercept` is false, and
`arg1_mat * A^T + (arg2_mat with an appended constant column of ones) * B^T`
when `has_intercept` is true. -/
theorem C1_full_additive_compose (m : FullAdditive) (arg1_mat arg2_mat a_t b_t : Mat)
    (ha : m.mat_a_t = some a_t) (hb : m.mat_b_t = some b_t) :
    (m.has_intercept = false →
      m.compose arg1_mat arg2_mat =
        .ok (Mat.add (Mat.mul arg1_mat a_t) (Mat.mul arg2_mat b_t))) ∧
    (m.has_intercept = true →
      m.compose arg1_mat arg2_mat =
        .ok (Mat.add (Mat.mul arg1_mat a_t)
                     (Mat.mul (padd_matrix arg2_mat 1) b_t))) := by
  constructor <;> intro h <;> simp [FullAdditive.compose, ha, hb, h]

/-- Witness for C1 at a concrete intercept-free model. -/
theorem C1_witness :
    FullAdditive.compose exModelNoInt exArg1 exArg2 =
      .ok (Mat.add (Mat.mul exArg1 exAt) (Mat.mul exArg2 exBt)) :=
  (C1_full_additive_compose exModelNoInt exArg1 exArg2 exAt exBt rfl rfl).1 rfl

/-- C9: `_train` re-reads `has_intercept` from the learner, regresses the
horizontal stack of `arg1_mat` and `arg2_mat` against `phrase_mat`, and
splits the coefficient matrix at row index `arg1_mat`'s column count:
rows `[0, arg1_cols)` become `A^T`, the rest become `B^T`. -/
theorem C9_full_additive_train (m : FullAdditive) (L : RegressionLearner)
    (arg1_mat arg2_mat phrase_mat : Mat)
    (h : m.regression_learner = some L) :
    ∃ m2, m.train arg1_mat arg2_mat phrase_mat = .ok m2 ∧
      m2.has_intercept = L.has_intercept ∧
      m2.mat_a_t =
        some ((L.train (arg1_mat.hstack arg2_mat) phrase_mat).rowRangeTo arg1_mat.cols) ∧
      m2.mat_b_t =
        some ((L.train (arg1_mat.hstack arg2_mat) phrase_mat).rowRangeFrom arg1_mat.cols) := by
  unfold FullAdditive.train
  rw [h]
  exact ⟨_, rfl, rfl, rfl, rfl⟩

/-- Witness for C9 at a concrete learner-owning model. -/
theorem C9_witness :
    ∃ m2, FullAdditive.train exModelLearner exArg1 exArg2 exPhrase = .ok m2 ∧
      m2.has_intercept = exLearner.has_intercept ∧
      m2.mat_a_t =
        some ((exLearner.train (exArg1.hstack exArg2) exPhrase).rowRangeTo exArg1.cols) ∧
      m2.mat_b_t =
        some ((exLearner.train (exArg1.hstack exArg2) exPhrase).rowRangeFrom exArg1.cols) :=
  C9_full_additive_train exModelLearner exLearner exArg1 exArg2 exPhrase rfl

/-- C10: the constructor takes the direct-parameter path only when both
`"A"` and `"B"` are supplied; when exactly one of them is supplied it does
not raise: it silently ignores the supplied matrix and falls back to the
learner path (default ridge learner), with `has_intercept` taken from the
learner. -/
theorem C10_full_additive_init_single_param (kw : Kwargs)
    (h : kw.A.isSome ≠ kw.B.isSome) :
    ∃ m, FullAdditive.init kw = .ok m ∧
      m.mat_a_t = none ∧ m.mat_b_t = none ∧
      m.regression_learner = some (kw.learner.getD RidgeRegressionLearner) ∧
      m.has_intercept = (kw.learner.getD RidgeRegressionLearner).has_intercept := by
  rcases kw with ⟨A, B, learner⟩
  cases A <;> cases B <;>
    first
      | exact absurd rfl h
      | exact ⟨_, rfl, rfl, rfl, rfl, rfl⟩

/-- Witness for C10: only `"A"` supplied. -/
theorem C10_witness :
    ∃ m, FullAdditive.init ⟨some (.mat exAt), none, none⟩ = .ok m ∧
      m.mat_a_t = none ∧ m.mat_b_t = none ∧
      m.regression_learner =
        some ((none : Option RegressionLearner).getD RidgeRegressionLearner) ∧
      m.has_intercept =
        ((none : Option RegressionLearner).getD RidgeRegressionLearner).has_intercept :=
  C10_full_additive_init_single_param ⟨some (.mat exAt), none, none⟩ (by decide)

/-- The canonical association list sending the elements of a string list to
consecutive indices starting at `k`.  Python dictionaries built by the space
utilities are exactly of this shape (insertion order = list order). -/
def list2dictFrom (k : Nat) : List String → List (String × Nat)
  | [] => []
  | w :: ws => (w, k) :: list2dictFrom (k + 1) ws

/-- The canonical index dictionary of a string list (indices from 0). -/
def list2dictRaw (l : List String) : List (String × Nat) :=
  list2dictFrom 0 l

/-- Modelled from the spec: `list2dict` of the external `space_utils` module
(missing from src/) builds the string-to-index dictionary of a list and
fails with a DuplicateKey error when the list has a repeated string. -/
def list2dict (l : List String) : Except Err (List (String × Nat)) :=
  if l.Nodup then .ok (list2dictRaw l) else .error .duplicateKey

/-- Modelled from the spec: `assert_dict_match_list` of the external
`space_utils` module (missing from src/) checks that the supplied
dictionary is the exact inverse of the string list (spec section 3: exact
inverses, entries pairwise distinct). -/
def dict_match_list (d : List (String × Nat)) (l : List String) : Prop :=
  l.Nodup ∧ d = list2dictRaw l

instance (d : List (String × Nat)) (l : List String) :
    Decidable (dict_match_list d l) := by
  unfold dict_match_list; infer_instance

/-- Modelled from the spec: `add_items_to_dict` of the external
`space_utils` module (missing from src/) appends the strings of a list to a
dictionary at the next consecutive indices, failing with a DuplicateKey
error when a string is already a key. -/
def add_items_to_dict (d : List (String × Nat)) : List String →
    Except Err (List (String × Nat))
  | [] => .ok d
  | w :: ws =>
    if (d.lookup w).isSome then .error .duplicateKey
    else add_items_to_dict (d ++ [(w, d.length)]) ws

/-- Modelled from the spec: `assert_shape_consistent` of the external
`space_utils` module (missing from src/) checks the data-model invariants
`len(id2row) == matrix.rows` and `len(id2column) == matrix.cols`, where the
column maps may both be empty (spec section 3: `id2column`/`column2id`
"may be empty"). -/
def shape_consistent (m : Mat) (id2row id2column : List String)
    (row2id column2id : List (String × Nat)) : Prop :=
  m.data.length = id2row.length ∧ row2id.length = id2row.length ∧
  ((id2column = [] ∧ column2id = []) ∨
    (m.cols = id2column.length ∧ column2id.length = id2column.length))

instance (m : Mat) (id2row id2column : List String)
    (row2id column2id : List (String × Nat)) :
    Decidable (shape_consistent m id2row id2column row2id column2id) := by
  unfold shape_consistent; infer_instance

/-- A transformation accepted by `Space.apply` (`space.py` lines 76-77):
a weighting, a dimensionality reduction, or a feature selection.  Modelled
from the spec at the external interface (spec section 6): a weighting only
rescales the matrix values (shape preserved, here an entrywise map), a
dimensionality reduction replaces the matrix arbitrarily, and a feature
selection exposes its selected-column index list. -/
inductive Transformation where
  | weighting (f : Int → Int)
  | dimReduction (g : Mat → Mat)
  | featureSelection (selected_columns : List Nat)

/-- An operation record produced by a transformation (spec section 2:
a replayable unary transform over a matrix). -/
inductive Operation where
  | weighting (f : Int → Int)
  | dimReduction (g : Mat → Mat)
  | featureSelection (selected_columns : List Nat)

/-- Modelled from the spec: `create_operation` of the transformation
capabilities (spec section 6). -/
def Transformation.create_operation : Transformation → Operation
  | .weighting f => .weighting f
  | .dimReduction g => .dimReduction g
  | .featureSelection sel => .featureSelection sel

/-- Modelled from the spec: an operation's `apply(matrix) -> matrix`
(spec section 6); feature selection narrows the matrix to the selected
columns. -/
def Operation.applyOp : Operation → Mat → Mat
  | .weighting f, m => ⟨m.cols, m.data.map (List.map f)⟩
  | .dimReduction g, m => g m
  | .featureSelection sel, m =>
      ⟨sel.length, m.data.map (fun r => sel.map (fun j => r.getD j 0))⟩

/-- The attribute state of a `Space` instance (`space.py` lines 44-69):
the co-occurrence matrix, the row and column string lists, their index
dictionaries, and the operation log. -/
structure Space where
  cooccurrence_matrix : Mat
  id2row : List String
  row2id : List (String × Nat)
  id2column : List String
  column2id : List (String × Nat)
  operations : List Operation

/-- The `Space` constructor (`space.py` lines 44-69): builds missing index
dictionaries with `list2dict`, checks supplied ones with
`assert_dict_match_list`, checks shape consistency, and stores the fields
(an absent `operations` keyword argument defaults to the empty log). -/
def resolve_dict (d? : Option (List (String × Nat))) (l : List String) :
    Except Err (List (String × Nat)) :=
  match d? with
  | none => list2dict l
  | some d => if dict_match_list d l then .ok d else .error .mappingMismatch

def Space.make (m : Mat) (id2row id2column : List String)
    (row2id? column2id? : Option (List (String × Nat)))
    (ops : List Operation) : Except Err Space :=
  match resolve_dict row2id? id2row with
  | .error e => .error e
  | .ok row2id =>
    match resolve_dict column2id? id2column with
    | .error e => .error e
    | .ok column2id =>
      if shape_consistent m id2row id2column row2id column2id then
        .ok ⟨m, id2row, row2id, id2column, column2id, ops⟩
      else
        .error .shapeMismatch

/-- The data-model invariants of a constructed `Space` (spec section 3),
with the index dictionaries in canonical form. -/
def Space.Valid (s : Space) : Prop :=
  s.id2row.Nodup ∧ s.row2id = list2dictRaw s.id2row ∧
  s.id2column.Nodup ∧ s.column2id = list2dictRaw s.id2column ∧
  s.cooccurrence_matrix.data.length = s.id2row.length ∧
  (s.id2column = [] ∨ s.cooccurrence_matrix.cols = s.id2column.length)

instance (s : Space) : Decidable s.Valid := by
  unfold Space.Valid; infer_instance

/-- `Space.apply` (`space.py` lines 72-95): creates the operation record,
applies it to the matrix, appends it to the operation log, keeps the row
mappings, and derives the column mappings by the kind of transformation:
weighting keeps them, dimensionality reduction clears them, feature
selection takes the `id2column` entries at the transformation's selected
column indices and rebuilds `column2id` with `list2dict`. -/
def Space.apply (s : Space) (t : Transformation) : Except Err Space :=
  let op := t.create_operation
  let new_matrix := op.applyOp s.cooccurrence_matrix
  let new_operations := s.operations ++ [op]
  match t with
  | .dimReduction _ =>
      Space.make new_matrix s.id2row [] (some s.row2id) (some []) new_operations
  | .featureSelection sel =>
      let id2column := sel.map (fun j => s.id2column.getD j "")
      match list2dict id2column with
      | .error e => .error e
      | .ok column2id =>
          Space.make new_matrix s.id2row id2column (some s.row2id)
            (some column2id) new_operations
  | .weighting _ =>
      Space.make new_matrix s.id2row s.id2column (some s.row2id)
        (some s.column2id) new_operations

/-- `Space.get_row` (`space.py` lines 160-163): `None` when the word is not
a key of `row2id`, otherwise the word's matrix row. -/
def Space.get_row (s : Space) (word : String) : Option (List Int) :=
  match s.row2id.lookup word with
  | none => none
  | some i => some (s.cooccurrence_matrix.data.getD i [])

/-- The row-index collection loop of `Space.get_rows` (`space.py` lines
165-172): fails with a KeyNotFound error at the first missing word. -/
def collect_row_ids (d : List (String × Nat)) : List String → Except Err (List Nat)
  | [] => .ok []
  | w :: ws =>
    match d.lookup w with
    | none => .error (.keyNotFound w)
    | some i => do
        let rest ← collect_row_ids d ws
        .ok (i :: rest)

/-- `Space.get_rows` (`space.py` lines 165-173): collects the row indices
of all requested words (KeyNotFound on the first missing one) and returns
the matrix rows at those indices, in request order. -/
def Space.get_rows (s : Space) (words : List String) : Except Err Mat :=
  (collect_row_ids s.row2id words).map
    (fun ids => ⟨s.cooccurrence_matrix.cols,
                 ids.map (fun i => s.cooccurrence_matrix.data.getD i [])⟩)

/-- Modelled from the spec: the external similarity capability exposes
`get_sim(vec1, vec2) -> scalar` (spec section 6). -/
structure Similarity where
  get_sim : List Int → List Int → Int

/-- Modelled from the spec: `get_sims_to_matrix(vec, matrix)` of the
similarity capability returns a column vector whose entry at row `i` is the
similarity of `vec` with row `i` of the matrix (spec sections 4.1 and 6). -/
def Similarity.get_sims_to_matrix (sim : Similarity) (vec : List Int) (m : Mat) : Mat :=
  ⟨1, m.data.map (fun r => [sim.get_sim vec r])⟩

/-- `Space.get_sim` (`space.py` lines 97-114): looks `word1` up in this
space and `word2` up in `space2` (or this space); a missing word yields
score `0.0` with a warning (the second component of the result records
whether a warning was emitted), otherwise the similarity capability scores
the two row vectors, with no warning. -/
def Space.get_sim (s : Space) (word1 word2 : String) (sim : Similarity)
    (space2 : Option Space) : Int × Bool :=
  let v1 := s.get_row word1
  let v2 := match space2 with
    | none => s.get_row word2
    | some sp => sp.get_row word2
  match v1 with
  | none => (0, true)
  | some x =>
    match v2 with
    | none => (0, true)
    | some y => (sim.get_sim x y, false)

/-- The sum of a list of integers (the row aggregation `sum` along axis 1
that `get_neighbours` hands to `sorted_permutation`). -/
def sumRow (l : List Int) : Int := l.foldr (· + ·) 0

/-- Stable descending insertion of a row index into an index list already
sorted by descending key. -/
def insertDesc (key : Nat → Int) (i : Nat) : List Nat → List Nat
  | [] => [i]
  | j :: js => if key j ≤ key i then i :: j :: js else j :: insertDesc key i js

/-- Stable descending insertion sort of row indices by key. -/
def sortDesc (key : Nat → Int) : List Nat → List Nat
  | [] => []
  | x :: xs => insertDesc key x (sortDesc key xs)

/-- Modelled from the spec: `sorted_permutation(sort_map, axis)` of the
external matrix capability, as `get_neighbours` uses it: a permutation of
the row indices that sorts the rows by descending row aggregate, ties
broken stably by original row order (spec sections 4.1 and 5). -/
def Mat.sorted_permutation (m : Mat) : List Nat :=
  sortDesc (fun i => sumRow (m.data.getD i [])) (List.range m.data.length)

/-- `Space.get_neighbours` (`space.py` lines 116-141): empty for a missing
word; otherwise scores the word's vector against every row of the queried
space (the neighbour space when given, this space otherwise), sorts the
row indices by descending score, and returns the top
`min(no_neighbours, len(id2row))` (target string, score) pairs. -/
def Space.get_neighbours (s : Space) (word : String) (no_neighbours : Nat)
    (sim : Similarity) (neighbour_space : Option Space) : List (String × Int) :=
  match s.get_row word with
  | none => []
  | some vector =>
    let target := neighbour_space.getD s
    let sims_to_matrix := sim.get_sims_to_matrix vector target.cooccurrence_matrix
    let id2row := target.id2row
    let sorted_perm := sims_to_matrix.sorted_permutation
    let n := min no_neighbours id2row.length
    (List.range n).map (fun count =>
      let i := sorted_perm.getD count 0
      (id2row.getD i "", (sims_to_matrix.data.getD i []).getD 0 0))

/-- `Space.vstack` (`space.py` lines 143-157): requires equal column counts
and identical `id2column` lists, merges the row dictionaries with
`add_items_to_dict` (DuplicateKey on a shared row string), concatenates the
row lists and the matrices, and constructs the result space with an empty
operation log. -/
def Space.vstack (s : Space) (space_ : Space) : Except Err Space :=
  if s.cooccurrence_matrix.cols ≠ space_.cooccurrence_matrix.cols then
    .error .shapeMismatch
  else if s.id2column ≠ space_.id2column then
    .error .columnMismatch
  else
    match add_items_to_dict s.row2id space_.id2row with
    | .error e => .error e
    | .ok new_row2id =>
        Space.make (s.cooccurrence_matrix.vstack space_.cooccurrence_matrix)
          (s.id2row ++ space_.id2row) s.id2column (some new_row2id)
          (some s.column2id) []

/-- `Space.set_cooccurrence_matrix` (`space.py` lines 175-179).  The source
body runs `assert_is_instance(matrix_, Matrix)` and then evaluates
`self.assert_shape_consistent(...)`; the `Space` class defines no attribute
named `assert_shape_consistent` (the validator of that name is a
module-level function imported in `space.py` line 9), so every call raises
`AttributeError` at that attribute access, before any validation of the new
matrix or any assignment to `self._cooccurrence_matrix`. -/
def Space.set_cooccurrence_matrix (_s : Space) (_matrix : Mat) : Except Err Space :=
  .error .attributeError

lemma length_list2dictFrom (k : Nat) (l : List String) :
    (list2dictFrom k l).length = l.length := by
  induction l generalizing k with
  | nil => rfl
  | cons w ws ih => simp [list2dictFrom, ih]

lemma list2dictFrom_append (k : Nat) (l1 l2 : List String) :
    list2dictFrom k (l1 ++ l2) =
      list2dictFrom k l1 ++ list2dictFrom (k + l1.length) l2 := by
  induction l1 generalizing k with
  | nil => simp [list2dictFrom]
  | cons w ws ih =>
    simp only [List.cons_append, list2dictFrom, List.length_cons, List.append_eq]
    rw [ih]
    have h1 : k + 1 + ws.length = k + (ws.length + 1) := by omega
    rw [h1]

lemma lookup_list2dictFrom_eq_none {w : String} {l : List String}
    (h : w ∉ l) (k : Nat) : (list2dictFrom k l).lookup w = none := by
  induction l generalizing k with
  | nil => rfl
  | cons x xs ih =>
    simp only [List.mem_cons, not_or] at h
    rw [list2dictFrom, List.lookup_cons, beq_false_of_ne h.1]
    simpa using ih h.2 (k + 1)

lemma lookup_list2dictFrom_isSome {w : String} {l : List String}
    (h : w ∈ l) (k : Nat) : ((list2dictFrom k l).lookup w).isSome := by
  induction l generalizing k with
  | nil => cases h
  | cons x xs ih =>
    rw [list2dictFrom, List.lookup_cons]
    by_cases hx : w = x
    · simp [hx]
    · rw [beq_false_of_ne hx]
      rcases List.mem_cons.mp h with h1 | h2
      · exact absurd h1 hx
      · simpa using ih h2 (k + 1)

lemma lookup_list2dictFrom_getD {l : List String} (hnd : l.Nodup)
    {i : Nat} (hi : i < l.length) (k : Nat) :
    (list2dictFrom k l).lookup (l.getD i "") = some (k + i) := by
  induction l generalizing i k with
  | nil => simp at hi
  | cons x xs ih =>
    rcases List.nodup_cons.mp hnd with ⟨hx, hxs⟩
    cases i with
    | zero => simp [list2dictFrom, List.lookup]
    | succ j =>
      have hj : j < xs.length := by
        simp only [List.length_cons] at hi
        omega
      have hmem : xs.getD j "" ∈ xs := by
        rw [List.getD_eq_getElem _ _ hj]
        exact List.getElem_mem hj
      have hne : xs.getD j "" ≠ x := fun he => hx (he ▸ hmem)
      rw [List.getD_cons_succ, list2dictFrom, List.lookup_cons,
          beq_false_of_ne hne]
      have hrec := ih hxs hj (k + 1)
      rw [show k + (j + 1) = k + 1 + j from by omega]
      simpa using hrec

lemma lookup_list2dictRaw_eq_none {w : String} {l : List String}
    (h : w ∉ l) : (list2dictRaw l).lookup w = none :=
  lookup_list2dictFrom_eq_none h 0

lemma lookup_list2dictRaw_getD {l : List String} (hnd : l.Nodup)
    {i : Nat} (hi : i < l.length) :
    (list2dictRaw l).lookup (l.getD i "") = some i := by
  simpa using lookup_list2dictFrom_getD hnd hi 0

lemma length_list2dictRaw (l : List String) :
    (list2dictRaw l).length = l.length :=
  length_list2dictFrom 0 l

lemma lookup_append_of_isSome {d e : List (String × Nat)} {w : String}
    (h : (d.lookup w).isSome) : ((d ++ e).lookup w) = d.lookup w := by
  induction d with
  | nil => simp at h
  | cons p ps ih =>
    obtain ⟨x, v⟩ := p
    rw [List.cons_append, List.lookup_cons, List.lookup_cons]
    by_cases hx : w = x
    · simp [hx]
    · rw [beq_false_of_ne hx]
      rw [List.lookup_cons, beq_false_of_ne hx] at h
      simpa using ih (by simpa using h)

lemma add_items_to_dict_error {l : List String} :
    ∀ {d : List (String × Nat)}, (∃ w ∈ l, (d.lookup w).isSome) →
      add_items_to_dict d l = .error .duplicateKey := by
  induction l with
  | nil => rintro d ⟨w, hw, _⟩; cases hw
  | cons x xs ih =>
    rintro d ⟨w, hw, hsome⟩
    by_cases hx : (d.lookup x).isSome
    · simp [add_items_to_dict, hx]
    · rcases List.mem_cons.mp hw with rfl | hw2
      · exact absurd hsome hx
      · simp only [add_items_to_dict, hx, Bool.false_eq_true, if_false,
                   if_neg]
        exact ih ⟨w, hw2, by
          rw [lookup_append_of_isSome hsome]; exact hsome⟩

lemma add_items_to_dict_ok {l2 : List String} :
    ∀ {l1 : List String}, l2.Nodup → (∀ w ∈ l2, w ∉ l1) →
      add_items_to_dict (list2dictRaw l1) l2 = .ok (list2dictRaw (l1 ++ l2)) := by
  induction l2 with
  | nil => intro l1 _ _; simp [add_items_to_dict]
  | cons w ws ih =>
    intro l1 hnd hdisj
    rcases List.nodup_cons.mp hnd with ⟨hw, hws⟩
    have hlw : ((list2dictRaw l1).lookup w) = none :=
      lookup_list2dictRaw_eq_none (hdisj w (List.mem_cons_self w ws))
    have hstep : list2dictRaw l1 ++ [(w, (list2dictRaw l1).length)] =
        list2dictRaw (l1 ++ [w]) := by
      rw [length_list2dictRaw]
      unfold list2dictRaw
      rw [list2dictFrom_append]
      simp [list2dictFrom]
    have hdisj2 : ∀ v ∈ ws, v ∉ l1 ++ [w] := by
      intro v hv
      simp only [List.mem_append, List.mem_singleton, not_or]
      exact ⟨hdisj v (List.mem_cons_of_mem w hv), fun he => hw (he ▸ hv)⟩
    calc add_items_to_dict (list2dictRaw l1) (w :: ws)
        = add_items_to_dict (list2dictRaw (l1 ++ [w])) ws := by
          simp [add_items_to_dict, hlw, hstep]
      _ = .ok (list2dictRaw ((l1 ++ [w]) ++ ws)) := ih hws hdisj2
      _ = .ok (list2dictRaw (l1 ++ w :: ws)) := by
          rw [List.append_assoc]; rfl

lemma length_insertDesc (key : Nat → Int) (x : Nat) (l : List Nat) :
    (insertDesc key x l).length = l.length + 1 := by
  induction l with
  | nil => rfl
  | cons j js ih =>
    by_cases h : key j ≤ key x
    · simp [insertDesc, h]
    · simp [insertDesc, h, ih]

lemma length_sortDesc (key : Nat → Int) (l : List Nat) :
    (sortDesc key l).length = l.length := by
  induction l with
  | nil => rfl
  | cons x xs ih => simp [sortDesc, length_insertDesc, ih]

lemma mem_insertDesc {key : Nat → Int} {x y : Nat} {l : List Nat} :
    y ∈ insertDesc key x l ↔ y = x ∨ y ∈ l := by
  induction l with
  | nil => simp [insertDesc]
  | cons j js ih =>
    unfold insertDesc
    by_cases h : key j ≤ key x
    · rw [if_pos h]
      simp only [List.mem_cons]
    · rw [if_neg h]
      simp only [List.mem_cons, ih]
      tauto

lemma pairwise_insertDesc {key : Nat → Int} {l : List Nat}
    (h : l.Pairwise (fun i j => key j ≤ key i)) (x : Nat) :
    (insertDesc key x l).Pairwise (fun i j => key j ≤ key i) := by
  induction l with
  | nil => simp [insertDesc]
  | cons j js ih =>
    rcases List.pairwise_cons.mp h with ⟨hj, hjs⟩
    by_cases hle : key j ≤ key x
    · have heq : insertDesc key x (j :: js) = x :: j :: js := by
        simp [insertDesc, hle]
      rw [heq]
      refine List.pairwise_cons.mpr ⟨?_, h⟩
      intro y hy
      rcases List.mem_cons.mp hy with rfl | hy2
      · exact hle
      · exact le_trans (hj y hy2) hle
    · have heq : insertDesc key x (j :: js) = j :: insertDesc key x js := by
        simp [insertDesc, hle]
      rw [heq]
      refine List.pairwise_cons.mpr ⟨?_, ih hjs⟩
      intro y hy
      rcases mem_insertDesc.mp hy with rfl | hy2
      · exact le_of_not_le hle
      · exact hj y hy2

lemma pairwise_sortDesc (key : Nat → Int) (l : List Nat) :
    (sortDesc key l).Pairwise (fun i j => key j ≤ key i) := by
  induction l with
  | nil => simp [sortDesc]
  | cons x xs ih => exact pairwise_insertDesc ih x

lemma collect_row_ids_spec (d : List (String × Nat)) (ws : List String) :
    (∀ w, ws.find? (fun x => (d.lookup x).isNone) = some w →
       collect_row_ids d ws = .error (.keyNotFound w)) ∧
    (ws.find? (fun x => (d.lookup x).isNone) = none →
       collect_row_ids d ws = .ok (ws.map (fun x => (d.lookup x).getD 0))) := by
  induction ws with
  | nil => exact ⟨fun w h => by simp at h, fun _ => rfl⟩
  | cons x xs ih =>
    cases h : d.lookup x with
    | none =>
      have hfind : List.find? (fun y => (d.lookup y).isNone) (x :: xs) = some x :=
        List.find?_cons_of_pos xs (by simp [h])
      constructor
      · intro w hw
        rw [hfind] at hw
        cases hw
        simp [collect_row_ids, h]
      · intro hw
        rw [hfind] at hw
        cases hw
    | some i =>
      have hfind : List.find? (fun y => (d.lookup y).isNone) (x :: xs) =
          List.find? (fun y => (d.lookup y).isNone) xs :=
        List.find?_cons_of_neg xs (by simp [h])
      constructor
      · intro w hw
        rw [hfind] at hw
        have hrec := ih.1 w hw
        simp only [collect_row_ids, h, hrec]
        rfl
      · intro hw
        rw [hfind] at hw
        have hrec := ih.2 hw
        simp only [collect_row_ids, h, hrec, List.map_cons, Option.getD_some]
        rfl

/-- A concrete three-target, two-feature space used by the witnesses. -/
def exSpace : Space :=
  ⟨⟨2, [[1, 2], [3, 4], [5, 6]]⟩, ["a", "b", "c"],
   [("a", 0), ("b", 1), ("c", 2)], ["f1", "f2"], [("f1", 0), ("f2", 1)], []⟩

/-- A concrete similarity capability used by the witnesses. -/
def exSim : Similarity := ⟨fun v w => sumRow v + sumRow w⟩

/-- C8: the claim says `set_cooccurrence_matrix` re-validates the data-model
invariants before installing the new matrix; the code instead raises
`AttributeError` on every call (it reads the non-existent attribute
`self.assert_shape_consistent`), so it neither validates nor installs. -/
theorem C8_set_cooccurrence_matrix_attribute_error (s : Space) (m : Mat) :
    s.set_cooccurrence_matrix m = .error .attributeError := rfl

/-- C5: `get_sim` never fails on a missing word: if `word1` is absent from
this space's rows, or `word2` is absent from the lookup space's rows (this
space, or `space2` when given), it returns score `0.0` together with a
warning; otherwise it returns the similarity capability's score on the two
row vectors, with no warning. -/
theorem C5_get_sim_soft_miss (s : Space) (w1 w2 : String) (sim : Similarity)
    (space2 : Option Space) :
    (s.get_row w1 = none → s.get_sim w1 w2 sim space2 = (0, true)) ∧
    (∀ v1, s.get_row w1 = some v1 →
      ((space2.getD s).get_row w2 = none →
        s.get_sim w1 w2 sim space2 = (0, true)) ∧
      (∀ v2, (space2.getD s).get_row w2 = some v2 →
        s.get_sim w1 w2 sim space2 = (sim.get_sim v1 v2, false))) := by
  constructor
  · intro h
    cases space2 <;> simp [Space.get_sim, h]
  · intro v1 h1
    constructor
    · intro h2
      cases space2 <;> simp_all [Space.get_sim, Option.getD]
    · intro v2 h2
      cases space2 <;> simp_all [Space.get_sim, Option.getD]

/-- Witness for C5: a missing first word and a fully present pair. -/
theorem C5_witness :
    Space.get_sim exSpace "zz" "a" exSim none = (0, true) ∧
    Space.get_sim exSpace "a" "b" exSim none = (exSim.get_sim [1, 2] [3, 4], false) := by
  constructor
  · exact (C5_get_sim_soft_miss exSpace "zz" "a" exSim none).1 (by decide)
  · exact ((C5_get_sim_soft_miss exSpace "a" "b" exSim none).2 [1, 2]
      (by decide)).2 [3, 4] (by decide)

/-- C6: `get_row` returns `None` when the single requested word is missing,
while `get_rows` fails with a KeyNotFound error naming the first missing
word of the request, and otherwise returns the matrix rows of all requested
words in request order. -/
theorem C6_get_row_vs_get_rows (s : Space) (word : String) (words : List String) :
    (s.row2id.lookup word = none → s.get_row word = none) ∧
    (∀ w, words.find? (fun x => (s.row2id.lookup x).isNone) = some w →
      s.get_rows words = .error (.keyNotFound w)) ∧
    (words.find? (fun x => (s.row2id.lookup x).isNone) = none →
      s.get_rows words = .ok ⟨s.cooccurrence_matrix.cols,
        words.map (fun x =>
          s.cooccurrence_matrix.data.getD ((s.row2id.lookup x).getD 0) [])⟩) := by
  refine ⟨?_, ?_, ?_⟩
  · intro h
    simp [Space.get_row, h]
  · intro w hw
    have hrec := (collect_row_ids_spec s.row2id words).1 w hw
    simp [Space.get_rows, hrec, Except.map]
  · intro hw
    have hrec := (collect_row_ids_spec s.row2id words).2 hw
    simp [Space.get_rows, hrec, Except.map, List.map_map, Function.comp]

/-- Witness for C6: one missing single word, one batch with a missing word,
one fully present batch. -/
theorem C6_witness :
    Space.get_row exSpace "zz" = none ∧
    Space.get_rows exSpace ["a", "zz", "b"] = .error (.keyNotFound "zz") ∧
    Space.get_rows exSpace ["b", "a"] = .ok ⟨2, [[3, 4], [1, 2]]⟩ := by
  refine ⟨(C6_get_row_vs_get_rows exSpace "zz" []).1 (by decide), ?_, ?_⟩
  · exact (C6_get_row_vs_get_rows exSpace "zz" ["a", "zz", "b"]).2.1 "zz" (by decide)
  · exact (C6_get_row_vs_get_rows exSpace "zz" ["b", "a"]).2.2 (by decide)

lemma sims_entry_eq_sum (sim : Similarity) (v : List Int) (m : Mat) (i : Nat) :
    ((sim.get_sims_to_matrix v m).data.getD i []).getD 0 0 =
      sumRow ((sim.get_sims_to_matrix v m).data.getD i []) := by
  show ((m.data.map (fun r => [sim.get_sim v r])).getD i []).getD 0 0 =
    sumRow ((m.data.map (fun r => [sim.get_sim v r])).getD i [])
  by_cases hlt : i < m.data.length
  · have h2 : i < (m.data.map (fun r => [sim.get_sim v r])).length := by
      simpa using hlt
    rw [List.getD_eq_getElem _ _ h2, List.getElem_map]
    simp [sumRow]
  · have h2 : (m.data.map (fun r => [sim.get_sim v r])).length ≤ i := by
      simp only [List.length_map]
      omega
    rw [List.getD_eq_default _ _ h2]
    simp [sumRow]

lemma neighbours_map_pairwise (M : Mat) (id2row : List String) (n : Nat)
    (hn : n ≤ M.data.length)
    (hentry : ∀ i, (M.data.getD i []).getD 0 0 = sumRow (M.data.getD i [])) :
    ((List.range n).map (fun c =>
        (id2row.getD (M.sorted_permutation.getD c 0) "",
         (M.data.getD (M.sorted_permutation.getD c 0) []).getD 0 0))).Pairwise
      (fun p q => q.2 ≤ p.2) := by
  have hpermlen : M.sorted_permutation.length = M.data.length := by
    unfold Mat.sorted_permutation
    rw [length_sortDesc, List.length_range]
  have hpair : M.sorted_permutation.Pairwise
      (fun a b => sumRow (M.data.getD b []) ≤ sumRow (M.data.getD a [])) := by
    unfold Mat.sorted_permutation
    exact pairwise_sortDesc _ _
  rw [List.pairwise_iff_getElem] at hpair
  rw [List.pairwise_iff_getElem]
  intro i j hi hj hij
  simp only [List.length_map, List.length_range] at hi hj
  simp only [List.getElem_map, List.getElem_range]
  have hi2 : i < M.sorted_permutation.length := by omega
  have hj2 : j < M.sorted_permutation.length := by omega
  rw [List.getD_eq_getElem _ _ hi2, List.getD_eq_getElem _ _ hj2]
  rw [hentry, hentry]
  exact hpair i j hi2 hj2 hij

/-- C3: `get_neighbours` returns the empty sequence when the word is absent
from `row2id`; otherwise it returns exactly `min(k, rows of the queried
space)` (target, score) pairs in non-increasing score order (so for
`k >= total_rows` it returns all rows). -/
theorem C3_get_neighbours_shape (s : Space) (word : String) (k : Nat)
    (sim : Similarity) (nsp : Option Space)
    (hrows : (nsp.getD s).id2row.length ≤
      (nsp.getD s).cooccurrence_matrix.data.length) :
    (s.get_row word = none → s.get_neighbours word k sim nsp = []) ∧
    (∀ v, s.get_row word = some v →
      (s.get_neighbours word k sim nsp).length =
        min k (nsp.getD s).id2row.length ∧
      (s.get_neighbours word k sim nsp).Pairwise (fun p q => q.2 ≤ p.2)) := by
  constructor
  · intro h
    simp [Space.get_neighbours, h]
  · intro v hv
    have hdef : s.get_neighbours word k sim nsp =
        (List.range (min k (nsp.getD s).id2row.length)).map (fun c =>
          ((nsp.getD s).id2row.getD
              ((sim.get_sims_to_matrix v
                  (nsp.getD s).cooccurrence_matrix).sorted_permutation.getD c 0) "",
           ((sim.get_sims_to_matrix v
               (nsp.getD s).cooccurrence_matrix).data.getD
              ((sim.get_sims_to_matrix v
                  (nsp.getD s).cooccurrence_matrix).sorted_permutation.getD c 0)
              []).getD 0 0)) := by
      simp only [Space.get_neighbours, hv]
    rw [hdef]
    constructor
    · simp
    · apply neighbours_map_pairwise
      · simp only [Similarity.get_sims_to_matrix, List.length_map]
        omega
      · intro i
        exact sims_entry_eq_sum sim v (nsp.getD s).cooccurrence_matrix i

/-- Witness for C3: a present word with `k` larger than the row count, and
an absent word. -/
theorem C3_witness :
    Space.get_neighbours exSpace "zz" 2 exSim none = [] ∧
    (Space.get_neighbours exSpace "a" 5 exSim none).length = min 5 3 ∧
    (Space.get_neighbours exSpace "a" 5 exSim none).Pairwise
      (fun p q => q.2 ≤ p.2) := by
  refine ⟨(C3_get_neighbours_shape exSpace "zz" 2 exSim none (by decide)).1
    (by decide), ?_, ?_⟩
  · exact ((C3_get_neighbours_shape exSpace "a" 5 exSim none (by decide)).2
      [1, 2] (by decide)).1
  · exact ((C3_get_neighbours_shape exSpace "a" 5 exSim none (by decide)).2
      [1, 2] (by decide)).2

lemma list2dict_ok {l : List String} (h : l.Nodup) :
    list2dict l = .ok (list2dictRaw l) := by
  simp [list2dict, h]

lemma make_ok {m : Mat} {id2row id2column : List String}
    {row2id column2id : List (String × Nat)} {ops : List Operation}
    (h1 : dict_match_list row2id id2row)
    (h2 : dict_match_list column2id id2column)
    (h3 : shape_consistent m id2row id2column row2id column2id) :
    Space.make m id2row id2column (some row2id) (some column2id) ops =
      .ok ⟨m, id2row, row2id, id2column, column2id, ops⟩ := by
  have hr : resolve_dict (some row2id) id2row = .ok row2id := by
    simp [resolve_dict, h1]
  have hc : resolve_dict (some column2id) id2column = .ok column2id := by
    simp [resolve_dict, h2]
  unfold Space.make
  rw [hr, hc]
  simp [h3]

lemma nodup_getD_map {l : List String} (hl : l.Nodup) {sel : List Nat}
    (hs : sel.Nodup) (hin : ∀ j ∈ sel, j < l.length) :
    (sel.map (fun j => l.getD j "")).Nodup := by
  refine List.Nodup.map_on ?_ hs
  intro x hx y hy hxy
  have hxl := hin x hx
  have hyl := hin y hy
  rw [List.getD_eq_getElem _ _ hxl, List.getD_eq_getElem _ _ hyl] at hxy
  exact (List.Nodup.getElem_inj_iff hl).mp hxy

/-- C2: applying a weighting transformation to a valid space yields a new
space with the same `id2row`, `row2id`, `id2column` and `column2id`, and
with the freshly created operation record appended at the end of the
operation log.  (The original space is a value in this embedding, so its
fields are unchanged by construction.) -/
theorem C2_apply_weighting (s : Space) (f : Int → Int) (hv : s.Valid) :
    ∃ s2, s.apply (.weighting f) = .ok s2 ∧
      s2.id2row = s.id2row ∧ s2.row2id = s.row2id ∧
      s2.id2column = s.id2column ∧ s2.column2id = s.column2id ∧
      s2.operations = s.operations ++ [Operation.weighting f] := by
  obtain ⟨hnr, hr2i, hnc, hc2i, hlen, hcols⟩ := hv
  have h1 : dict_match_list s.row2id s.id2row := ⟨hnr, hr2i⟩
  have h2 : dict_match_list s.column2id s.id2column := ⟨hnc, hc2i⟩
  have h3 : shape_consistent
      ⟨s.cooccurrence_matrix.cols, s.cooccurrence_matrix.data.map (List.map f)⟩
      s.id2row s.id2column s.row2id s.column2id := by
    refine ⟨by simpa using hlen, ?_, ?_⟩
    · rw [hr2i, length_list2dictRaw]
    · rcases hcols with h | h
      · exact Or.inl ⟨h, by rw [hc2i, h]; rfl⟩
      · exact Or.inr ⟨h, by rw [hc2i, length_list2dictRaw]⟩
  exact ⟨_, make_ok h1 h2 h3, rfl, rfl, rfl, rfl, rfl⟩

/-- Witness for C2 at a concrete space and weighting. -/
theorem C2_witness :
    ∃ s2, Space.apply exSpace (.weighting (fun x => 2 * x)) = .ok s2 ∧
      s2.id2row = exSpace.id2row ∧ s2.row2id = exSpace.row2id ∧
      s2.id2column = exSpace.id2column ∧ s2.column2id = exSpace.column2id ∧
      s2.operations = exSpace.operations ++ [Operation.weighting (fun x => 2 * x)] :=
  C2_apply_weighting exSpace (fun x => 2 * x) (by decide)

/-- C7: applying a feature selection to a valid space narrows `id2column`
to the entries at the transformation's selected column indices, in selected
order (so its length is the number of selected indices), and rebuilds
`column2id` as the exact inverse of that subsequence. -/
theorem C7_apply_feature_selection (s : Space) (sel : List Nat) (hv : s.Valid)
    (hnd : sel.Nodup) (hin : ∀ j ∈ sel, j < s.id2column.length) :
    ∃ s2, s.apply (.featureSelection sel) = .ok s2 ∧
      s2.id2column = sel.map (fun j => s.id2column.getD j "") ∧
      s2.id2column.length = sel.length ∧
      s2.column2id = list2dictRaw s2.id2column ∧
      (∀ i, i < s2.id2column.length →
        s2.column2id.lookup (s2.id2column.getD i "") = some i) := by
  obtain ⟨hnr, hr2i, hnc, hc2i, hlen, hcols⟩ := hv
  have hnodup : (sel.map (fun j => s.id2column.getD j "")).Nodup :=
    nodup_getD_map hnc hnd hin
  have h1 : dict_match_list s.row2id s.id2row := ⟨hnr, hr2i⟩
  have h2 : dict_match_list (list2dictRaw (sel.map (fun j => s.id2column.getD j "")))
      (sel.map (fun j => s.id2column.getD j "")) := ⟨hnodup, rfl⟩
  have h3 : shape_consistent
      ⟨sel.length, s.cooccurrence_matrix.data.map (fun r => sel.map (fun j => r.getD j 0))⟩
      s.id2row (sel.map (fun j => s.id2column.getD j ""))
      s.row2id (list2dictRaw (sel.map (fun j => s.id2column.getD j ""))) := by
    refine ⟨by simpa using hlen, by rw [hr2i, length_list2dictRaw], Or.inr ⟨?_, ?_⟩⟩
    · simp
    · rw [length_list2dictRaw]
  have hl2d : list2dict (sel.map (fun j => s.id2column.getD j "")) =
      .ok (list2dictRaw (sel.map (fun j => s.id2column.getD j ""))) :=
    list2dict_ok hnodup
  refine ⟨⟨⟨sel.length,
        s.cooccurrence_matrix.data.map (fun r => sel.map (fun j => r.getD j 0))⟩,
      s.id2row, s.row2id,
      sel.map (fun j => s.id2column.getD j ""),
      list2dictRaw (sel.map (fun j => s.id2column.getD j "")),
      s.operations ++ [Operation.featureSelection sel]⟩, ?_, rfl, by simp, rfl, ?_⟩
  · show Space.apply s (.featureSelection sel) = _
    unfold Space.apply
    simp only [Transformation.create_operation, Operation.applyOp]
    rw [hl2d]
    exact make_ok h1 h2 h3
  · intro i hi
    simp only [List.length_map] at hi
    exact lookup_list2dictRaw_getD hnodup (by simpa using hi)

/-- Witness for C7 at a concrete space selecting the second column. -/
theorem C7_witness :
    ∃ s2, Space.apply exSpace (.featureSelection [1]) = .ok s2 ∧
      s2.id2column = [1].map (fun j => exSpace.id2column.getD j "") ∧
      s2.id2column.length = [1].length ∧
      s2.column2id = list2dictRaw s2.id2column ∧
      (∀ i, i < s2.id2column.length →
        s2.column2id.lookup (s2.id2column.getD i "") = some i) :=
  C7_apply_feature_selection exSpace [1] (by decide) (by decide) (by decide)

/-- Two valid one-row spaces that share the row string "a" and have
identical columns. -/
def exShareA : Space := ⟨⟨1, [[1]]⟩, ["a"], [("a", 0)], ["c"], [("c", 0)], []⟩

def exShareB : Space := ⟨⟨1, [[2]]⟩, ["a"], [("a", 0)], ["c"], [("c", 0)], []⟩

/-- A valid one-row space with row "b" and the same single column "c". -/
def exDisj : Space := ⟨⟨1, [[3]]⟩, ["b"], [("b", 0)], ["c"], [("c", 0)], []⟩

/-- A valid one-row space with a different column string. -/
def exColMm : Space := ⟨⟨1, [[4]]⟩, ["x"], [("x", 0)], ["d"], [("d", 0)], []⟩

/-- Counterexample to C4 as stated: `exShareA` and `exShareB` have equal
column counts and identical `id2column`, yet `vstack` returns no space at
all — the row-dictionary merge fails with a DuplicateKey error on the
shared row string "a", so the result's `id2row` is not the concatenation
the claim asserts. -/
theorem C4_counterexample :
    exShareA.cooccurrence_matrix.cols = exShareB.cooccurrence_matrix.cols ∧
    exShareA.id2column = exShareB.id2column ∧
    Space.vstack exShareA exShareB = .error .duplicateKey ∧
    ∀ s3, Space.vstack exShareA exShareB ≠ .ok s3 := by
  have herr : Space.vstack exShareA exShareB = .error .duplicateKey := rfl
  refine ⟨rfl, rfl, herr, fun s3 h => ?_⟩
  rw [herr] at h
  exact Except.noConfusion h

/-- C4 (amended): for valid spaces with equal column counts, `vstack` fails
with a ColumnMismatch error when the `id2column` lists differ; when they
are identical it fails with a DuplicateKey error if the two spaces share a
row string, and otherwise returns a space whose `id2row` is the first
space's rows followed by the second's (so the row count is the sum) with an
empty operation log. -/
theorem C4_vstack_amended (s1 s2 : Space) (hv1 : s1.Valid) (hv2 : s2.Valid)
    (hcols : s1.cooccurrence_matrix.cols = s2.cooccurrence_matrix.cols) :
    (s1.id2column ≠ s2.id2column → s1.vstack s2 = .error .columnMismatch) ∧
    (s1.id2column = s2.id2column →
      ((∃ w ∈ s2.id2row, w ∈ s1.id2row) → s1.vstack s2 = .error .duplicateKey) ∧
      ((∀ w ∈ s2.id2row, w ∉ s1.id2row) →
        ∃ s3, s1.vstack s2 = .ok s3 ∧
          s3.id2row = s1.id2row ++ s2.id2row ∧
          s3.id2row.length = s1.id2row.length + s2.id2row.length ∧
          s3.cooccurrence_matrix.data.length =
            s1.cooccurrence_matrix.data.length +
              s2.cooccurrence_matrix.data.length ∧
          s3.operations = [])) := by
  obtain ⟨hnr1, hr2i1, hnc1, hc2i1, hlen1, hcols1⟩ := hv1
  obtain ⟨hnr2, hr2i2, hnc2, hc2i2, hlen2, hcols2⟩ := hv2
  have hifc : ¬(s1.cooccurrence_matrix.cols ≠ s2.cooccurrence_matrix.cols) :=
    fun hne => hne hcols
  constructor
  · intro hne
    unfold Space.vstack
    rw [if_neg hifc, if_pos hne]
  · intro heq
    have hife : ¬(s1.id2column ≠ s2.id2column) := fun hne => hne heq
    constructor
    · rintro ⟨w, hw2, hw1⟩
      have hdup : add_items_to_dict s1.row2id s2.id2row = .error .duplicateKey := by
        apply add_items_to_dict_error
        refine ⟨w, hw2, ?_⟩
        rw [hr2i1]
        exact lookup_list2dictFrom_isSome hw1 0
      unfold Space.vstack
      rw [if_neg hifc, if_neg hife, hdup]
    · intro hdisj
      have hmerge : add_items_to_dict s1.row2id s2.id2row =
          .ok (list2dictRaw (s1.id2row ++ s2.id2row)) := by
        rw [hr2i1]
        exact add_items_to_dict_ok hnr2 hdisj
      have hnodup12 : (s1.id2row ++ s2.id2row).Nodup :=
        List.Nodup.append hnr1 hnr2 (List.disjoint_comm.mpr hdisj)
      have h1 : dict_match_list (list2dictRaw (s1.id2row ++ s2.id2row))
          (s1.id2row ++ s2.id2row) := ⟨hnodup12, rfl⟩
      have h2 : dict_match_list s1.column2id s1.id2column := ⟨hnc1, hc2i1⟩
      have h3 : shape_consistent
          (s1.cooccurrence_matrix.vstack s2.cooccurrence_matrix)
          (s1.id2row ++ s2.id2row) s1.id2column
          (list2dictRaw (s1.id2row ++ s2.id2row)) s1.column2id := by
        refine ⟨?_, by rw [length_list2dictRaw], ?_⟩
        · show (s1.cooccurrence_matrix.data ++ s2.cooccurrence_matrix.data).length = _
          rw [List.length_append, List.length_append, hlen1, hlen2]
        · rcases hcols1 with h | h
          · exact Or.inl ⟨h, by rw [hc2i1, h]; rfl⟩
          · exact Or.inr ⟨h, by rw [hc2i1, length_list2dictRaw]⟩
      refine ⟨⟨s1.cooccurrence_matrix.vstack s2.cooccurrence_matrix,
          s1.id2row ++ s2.id2row, list2dictRaw (s1.id2row ++ s2.id2row),
          s1.id2column, s1.column2id, []⟩, ?_, rfl, ?_, ?_, rfl⟩
      · unfold Space.vstack
        rw [if_neg hifc, if_neg hife, hmerge]
        exact make_ok h1 h2 h3
      · rw [List.length_append]
      · show (s1.cooccurrence_matrix.data ++ s2.cooccurrence_matrix.data).length = _
        rw [List.length_append]

/-- Witness for the amended C4: a column mismatch, and a successful stack
of two row-disjoint spaces. -/
theorem C4_witness :
    Space.vstack exShareA exColMm = .error .columnMismatch ∧
    ∃ s3, Space.vstack exShareA exDisj = .ok s3 ∧
      s3.id2row = exShareA.id2row ++ exDisj.id2row ∧
      s3.id2row.length = exShareA.id2row.length + exDisj.id2row.length ∧
      s3.cooccurrence_matrix.data.length =
        exShareA.cooccurrence_matrix.data.length +
          exDisj.cooccurrence_matrix.data.length ∧
      s3.operations = [] := by
  constructor
  · exact (C4_vstack_amended exShareA exColMm (by decide) (by decide)
      (by decide)).1 (by decide)
  · exact ((C4_vstack_amended exShareA exDisj (by decide) (by decide)
      (by decide)).2 (by decide)).2 (by decide)
